import Mathlib

/-!
Verification of the StegofyDev brand-management data model.

The relational schema (Prisma, `schema.prisma`) is embedded as a `Store`
of row lists; the declared foreign-key actions (`onDelete: Cascade`,
`onDelete: SetNull`) and unique constraints (`@unique`) determine the
store operations. The React form handlers (`BrandProfileSection`,
`BrandProductDetail`, `RegisterForm`) are embedded as pure functions on
their inputs.
-/

namespace Stegofy

/-- `Role` enum from the schema: ADMIN | BRAND | CUSTOMER. -/
inductive Role where
  | admin
  | brand
  | customer
  deriving DecidableEq, Repr

/-- `FileType` enum from the schema: IMAGE | PDF | VIDEO. -/
inductive FileType where
  | image
  | pdf
  | video
  deriving DecidableEq, Repr

/-- `PageStatus` enum from the schema: DRAFT | PUBLISHED | ARCHIVED. -/
inductive PageStatus where
  | draft
  | published
  | archived
  deriving DecidableEq, Repr

/-- Opaque JSON payload (the schema stores `Json?` columns verbatim). -/
abbrev Json := String

/-- `User` row: id, timestamps, unique email, password hash, role,
optional profile fields. -/
structure User where
  id : String
  createdAt : Nat
  updatedAt : Nat
  email : String
  password : String
  role : Role
  firstName : Option String
  lastName : Option String
  age : Option Int
  gender : Option String
  phone : Option String
  avatar : Option String
  deriving DecidableEq, Repr

/-- `CustomerProfile` row: `userId` is declared `@unique` with
`onDelete: Cascade`. -/
structure CustomerProfile where
  id : String
  createdAt : Nat
  updatedAt : Nat
  userId : String
  preferences : Option Json
  savedBrands : List String
  deriving DecidableEq, Repr

/-- `AdminProfile` row: `userId` is declared `@unique` with
`onDelete: Cascade`. -/
structure AdminProfile where
  id : String
  createdAt : Nat
  updatedAt : Nat
  userId : String
  permissions : List String
  department : Option String
  isSuperAdmin : Bool
  deriving DecidableEq, Repr

/-- `Brand` row: `userId` references `User` with `onDelete: Cascade`
and is NOT declared unique (only `@@index([userId])`). Required
columns: name, logo, description, email. -/
structure Brand where
  id : String
  createdAt : Nat
  updatedAt : Nat
  userId : String
  name : String
  logo : String
  tagline : Option String
  description : String
  videoUrl : Option String
  mission : Option String
  vision : Option String
  foundingYear : Option Int
  email : String
  phone : Option String
  address : Option Json
  socialLinks : Option Json
  certifications : Option Json
  awards : Option Json
  pressFeatures : Option Json
  featuredProducts : Option Json
  newLaunchProducts : Option Json
  campaigns : Option Json
  isActive : Bool
  isVerified : Bool
  settings : Option Json
  deriving DecidableEq, Repr

/-- `Review` row: `userId` and `brandId` both `onDelete: Cascade`;
`rating` is a plain `Int` with no check constraint in the schema. -/
structure Review where
  id : String
  createdAt : Nat
  updatedAt : Nat
  userId : String
  brandId : String
  rating : Int
  comment : Option String
  images : List String
  deriving DecidableEq, Repr

/-- `File` row: `userId` and `brandId` both `onDelete: Cascade`. -/
structure File where
  id : String
  createdAt : Nat
  updatedAt : Nat
  userId : String
  brandId : String
  name : String
  type : FileType
  size : Int
  mimeType : String
  url : String
  thumbnailUrl : Option String
  metadata : Option Json
  folder : Option String
  tags : List String
  description : Option String
  usageCount : Int
  lastUsed : Option Nat
  deriving DecidableEq, Repr

/-- `LandingPage` row: `brandId` `onDelete: Cascade`; `slug` is
declared `@unique` (global across all brands). -/
structure LandingPage where
  id : String
  createdAt : Nat
  updatedAt : Nat
  brandId : String
  name : String
  slug : String
  status : PageStatus
  settings : Option Json
  deriving DecidableEq, Repr

/-- `Block` row: `landingPageId` `onDelete: Cascade`. -/
structure Block where
  id : String
  createdAt : Nat
  updatedAt : Nat
  landingPageId : String
  type : String
  order : Int
  content : Json
  deriving DecidableEq, Repr

/-- `QRCode` row: `landingPageId` and `brandId` both
`onDelete: Cascade`; `scanCount Int @default(0)`. -/
structure QRCode where
  id : String
  createdAt : Nat
  updatedAt : Nat
  landingPageId : String
  brandId : String
  name : String
  data : String
  settings : Option Json
  scanCount : Nat
  deriving DecidableEq, Repr

/-- `ScanLog` row: `qrCodeId` `onDelete: Cascade`; `userId` is
optional with `onDelete: SetNull` (the one SetNull rule in the
schema). -/
structure ScanLog where
  id : String
  scannedAt : Nat
  qrCodeId : String
  userId : Option String
  ipAddress : Option String
  userAgent : Option String
  location : Option Json
  deriving DecidableEq, Repr

/-- The whole relational store: one list of rows per table. -/
structure Store where
  users : List User
  customerProfiles : List CustomerProfile
  adminProfiles : List AdminProfile
  brands : List Brand
  reviews : List Review
  files : List File
  landingPages : List LandingPage
  blocks : List Block
  qrCodes : List QRCode
  scanLogs : List ScanLog
  deriving DecidableEq, Repr

/-- Error taxonomy from the spec (§7), plus the dedicated
`profileAlreadyExists` rejection named in §4.1. -/
inductive StoreErr where
  | validationError
  | conflictError
  | notFoundError
  | referentialError
  | profileAlreadyExists
  | storeError
  deriving DecidableEq, Repr

/-! ### Foreign-key helpers: the ids present in each table. -/

def Store.userIds (s : Store) : List String := s.users.map User.id

def Store.brandIds (s : Store) : List String := s.brands.map Brand.id

def Store.pageIds (s : Store) : List String := s.landingPages.map LandingPage.id

def Store.qrIds (s : Store) : List String := s.qrCodes.map QRCode.id

/-- Referential integrity of the store: every foreign key declared in
the schema references an existing parent row (scan-log `userId` may be
null). "No orphaned rows" means exactly this predicate. -/
def WellFormed (s : Store) : Prop :=
  (∀ p ∈ s.customerProfiles, p.userId ∈ s.userIds) ∧
  (∀ p ∈ s.adminProfiles, p.userId ∈ s.userIds) ∧
  (∀ b ∈ s.brands, b.userId ∈ s.userIds) ∧
  (∀ r ∈ s.reviews, r.userId ∈ s.userIds ∧ r.brandId ∈ s.brandIds) ∧
  (∀ f ∈ s.files, f.userId ∈ s.userIds ∧ f.brandId ∈ s.brandIds) ∧
  (∀ p ∈ s.landingPages, p.brandId ∈ s.brandIds) ∧
  (∀ b ∈ s.blocks, b.landingPageId ∈ s.pageIds) ∧
  (∀ q ∈ s.qrCodes, q.landingPageId ∈ s.pageIds ∧ q.brandId ∈ s.brandIds) ∧
  (∀ l ∈ s.scanLogs, l.qrCodeId ∈ s.qrIds ∧
    ∀ u, l.userId = some u → u ∈ s.userIds)

instance (s : Store) : Decidable (WellFormed s) := by
  unfold WellFormed; infer_instance

/-! ### Cascade delete of a user.

The schema declares `onDelete: Cascade` on every relation out of
`User` except `ScanLog.user`, which is `onDelete: SetNull`. Deleting a
user therefore removes its profiles, its brands, and (transitively,
through the `Brand`, `LandingPage` and `QRCode` cascades) the brands'
files, reviews, landing pages, blocks, QR codes and those QR codes'
scan logs; every surviving scan log that referenced the user has its
`userId` set to null. A scan log both referencing the user and owned
(through its QR code) by one of the user's brands is removed: the
cascade wins over SetNull, as in the backing database. -/

/-- Ids of the brands owned by `uid` (cascade roots under `Brand`). -/
def deletedBrandIds (s : Store) (uid : String) : List String :=
  (s.brands.filter (fun b => b.userId == uid)).map Brand.id

/-- Ids of the landing pages owned by a brand being deleted. -/
def deletedPageIds (s : Store) (uid : String) : List String :=
  (s.landingPages.filter
    (fun p => (deletedBrandIds s uid).contains p.brandId)).map LandingPage.id

/-- Ids of the QR codes removed by the cascade (via their brand or via
their landing page). -/
def deletedQrIds (s : Store) (uid : String) : List String :=
  (s.qrCodes.filter (fun q =>
    (deletedBrandIds s uid).contains q.brandId ||
    (deletedPageIds s uid).contains q.landingPageId)).map QRCode.id

/-- Delete a user, applying the schema's declared `onDelete` actions
transitively. -/
def deleteUser (s : Store) (uid : String) : Store where
  users := s.users.filter (fun u => u.id != uid)
  customerProfiles := s.customerProfiles.filter (fun p => p.userId != uid)
  adminProfiles := s.adminProfiles.filter (fun p => p.userId != uid)
  brands := s.brands.filter (fun b => b.userId != uid)
  reviews := s.reviews.filter (fun r =>
    r.userId != uid && !((deletedBrandIds s uid).contains r.brandId))
  files := s.files.filter (fun f =>
    f.userId != uid && !((deletedBrandIds s uid).contains f.brandId))
  landingPages := s.landingPages.filter (fun p =>
    !((deletedBrandIds s uid).contains p.brandId))
  blocks := s.blocks.filter (fun b =>
    !((deletedPageIds s uid).contains b.landingPageId))
  qrCodes := s.qrCodes.filter (fun q =>
    !((deletedBrandIds s uid).contains q.brandId) &&
    !((deletedPageIds s uid).contains q.landingPageId))
  scanLogs := (s.scanLogs.filter (fun l =>
    !((deletedQrIds s uid).contains l.qrCodeId))).map (fun l =>
      if l.userId == some uid then { l with userId := none } else l)

/-! ### Create operations.

The schema declares the constraints (`@unique` on `LandingPage.slug`,
`CustomerProfile.userId`, `AdminProfile.userId`; foreign keys on every
child table; `@default(0)` on `QRCode.scanCount`); the operations
below enforce exactly those constraints, classified with the spec's
error taxonomy (§7). -/

/-- All landing-page slugs in the store. -/
def Store.slugs (s : Store) : List String := s.landingPages.map LandingPage.slug

/-- Global slug uniqueness: the `@unique` attribute on
`LandingPage.slug` (not scoped to a brand). -/
def SlugsUnique (s : Store) : Prop := s.slugs.Nodup

instance (s : Store) : Decidable (SlugsUnique s) := by
  unfold SlugsUnique; infer_instance

/-- Create a landing page: rejected with `ConflictError` when the slug
is already used anywhere (the `@unique` constraint), with
`ReferentialError` when the owning brand does not exist. -/
def createLandingPage (s : Store) (p : LandingPage) : Except StoreErr Store :=
  if s.landingPages.any (fun q => q.slug == p.slug) then
    .error .conflictError
  else if !(s.brandIds.contains p.brandId) then
    .error .referentialError
  else
    .ok { s with landingPages := p :: s.landingPages }

/-- Create a brand: the only constraint the schema declares on insert
is the foreign key `Brand.userId → User.id`; in particular
`Brand.userId` carries no uniqueness constraint, and the required
string columns admit empty strings (`NOT NULL` only). -/
def createBrand (s : Store) (b : Brand) : Except StoreErr Store :=
  if !(s.userIds.contains b.userId) then
    .error .referentialError
  else
    .ok { s with brands := b :: s.brands }

/-- Create a customer profile: rejected when the user already has one
(the `@unique` constraint on `CustomerProfile.userId`; spec §4.1 names
the rejection `ProfileAlreadyExists`). -/
def createCustomerProfile (s : Store) (p : CustomerProfile) :
    Except StoreErr Store :=
  if s.customerProfiles.any (fun q => q.userId == p.userId) then
    .error .profileAlreadyExists
  else if !(s.userIds.contains p.userId) then
    .error .referentialError
  else
    .ok { s with customerProfiles := p :: s.customerProfiles }

/-- Create an admin profile: rejected when the user already has one
(the `@unique` constraint on `AdminProfile.userId`). -/
def createAdminProfile (s : Store) (p : AdminProfile) :
    Except StoreErr Store :=
  if s.adminProfiles.any (fun q => q.userId == p.userId) then
    .error .profileAlreadyExists
  else if !(s.userIds.contains p.userId) then
    .error .referentialError
  else
    .ok { s with adminProfiles := p :: s.adminProfiles }

/-- Insert a review at the storage layer: the schema constrains only
the two foreign keys; `rating` has no range check. -/
def createReview (s : Store) (r : Review) : Except StoreErr Store :=
  if !(s.userIds.contains r.userId) then
    .error .referentialError
  else if !(s.brandIds.contains r.brandId) then
    .error .referentialError
  else
    .ok { s with reviews := r :: s.reviews }

/-- Modelled from the spec: §4.3 requires the caller to validate the
rating (1..5 inclusive) before insert, rejecting out-of-range ratings
with `ValidationError`; the validating caller itself is not among the
source files. -/
def createReviewChecked (s : Store) (r : Review) : Except StoreErr Store :=
  if r.rating < 1 || 5 < r.rating then
    .error .validationError
  else
    createReview s r

/-- Create a QR code with the schema's `@default(0)` scan counter
applied (the stored row always starts at `scanCount = 0`). -/
def createQRCode (s : Store) (q : QRCode) : Except StoreErr Store :=
  if !(s.pageIds.contains q.landingPageId) then
    .error .referentialError
  else if !(s.brandIds.contains q.brandId) then
    .error .referentialError
  else
    .ok { s with qrCodes := { q with scanCount := 0 } :: s.qrCodes }

/-- Modelled from the spec: §4.5 — record a scan by inserting a
scan-log row and atomically incrementing the owning QR code's
`scanCount` in one logical transaction; the write path is not among
the source files. -/
def recordScan (s : Store) (l : ScanLog) : Except StoreErr Store :=
  if !(s.qrIds.contains l.qrCodeId) then
    .error .referentialError
  else
    .ok { s with
      scanLogs := l :: s.scanLogs
      qrCodes := s.qrCodes.map (fun q =>
        if q.id == l.qrCodeId then { q with scanCount := q.scanCount + 1 }
        else q) }

/-- Record a whole sequence of scans, stopping at the first error.
The spec (§4.5, §5) requires each scan's log-insert/counter-increment
pair to be atomic, so any concurrent execution of scans is observably
some sequential order of them; this function ranges over all such
orders. -/
def recordScans (s : Store) : List ScanLog → Except StoreErr Store
  | [] => .ok s
  | l :: ls =>
    match recordScan s l with
    | .ok s' => recordScans s' ls
    | .error e => .error e

/-- The denormalized-counter invariant of §3: each QR code's
`scanCount` equals the number of scan logs referencing it. -/
def ScanInv (s : Store) : Prop :=
  ∀ q ∈ s.qrCodes,
    q.scanCount = (s.scanLogs.filter (fun l => l.qrCodeId == q.id)).length

instance (s : Store) : Decidable (ScanInv s) := by
  unfold ScanInv; infer_instance

/-! ### Brand profile form (`BrandProfileSection.handleSubmit`).

The handler aborts when no user is logged in, when the brand name is
empty, or when the contact email is empty; otherwise it builds the
update payload, strips entries whose value is `undefined`/`null`/`''`,
and upserts on `user_id`. -/

/-- A value placed in the upsert payload (string, number, string
array, JSON object, or null). -/
inductive FieldVal where
  | str (s : String)
  | num (n : Int)
  | strList (l : List String)
  | obj (kvs : List (String × String))
  | null
  deriving DecidableEq, Repr

/-- The pieces of component state read by `handleSubmit`. -/
structure ProfileForm where
  brandName : String
  logo : String
  tagline : String
  description : String
  website : String
  gstNumber : String
  foundedYear : String
  hqLocation : String
  whatsappSupport : String
  supportEmail : String
  supportPhone : String
  teamMembers : List String
  productCategories : List String
  email : String
  phone : String
  address : String
  socialLinks : List (String × String)
  deriving DecidableEq, Repr

/-- The `updatePayload` object literal built by `handleSubmit`
(empty-string tests model JS falsiness of `''`). -/
def buildUpdatePayload (uid now : String) (p : ProfileForm) :
    List (String × FieldVal) :=
  [("user_id", .str uid),
   ("name", .str p.brandName),
   ("logo", .str p.logo),
   ("tagline", .str p.tagline),
   ("description", .str p.description),
   ("website", .str p.website),
   ("gst_number", .str p.gstNumber),
   ("founded_year",
     if p.foundedYear = "" then .null
     else .num (p.foundedYear.toInt?.getD 0)),
   ("hq_location", .str p.hqLocation),
   ("whatsapp_support", .str p.whatsappSupport),
   ("support_email", .str p.supportEmail),
   ("support_phone", .str p.supportPhone),
   ("team_members",
     if 0 < p.teamMembers.length then .strList p.teamMembers else .null),
   ("product_categories",
     if 0 < p.productCategories.length then .strList p.productCategories
     else .null),
   ("email", .str p.email),
   ("contact_email", .str p.email),
   ("contact_mobile", .str p.phone),
   ("contact_address", .str p.address),
   ("social_handles",
     if 0 < p.socialLinks.length then .obj p.socialLinks else .null),
   ("updated_at", .str now)]

/-- The removal step: drop every payload entry whose value is
`undefined`, `null` or `''`. -/
def cleanPayload (l : List (String × FieldVal)) : List (String × FieldVal) :=
  l.filter (fun kv => !(kv.2 == FieldVal.null || kv.2 == FieldVal.str ""))

/-- The ways `handleSubmit` aborts before writing. -/
inductive SubmitErr where
  | notLoggedIn
  | brandNameRequired
  | emailRequired
  deriving DecidableEq, Repr

/-- `BrandProfileSection.handleSubmit`: validation order and payload
construction as written (login check, brand-name check, email check,
then build-and-clean). -/
def brandProfileSubmit (user : Option String) (now : String)
    (p : ProfileForm) : Except SubmitErr (List (String × FieldVal)) :=
  match user with
  | none => .error .notLoggedIn
  | some uid =>
    if p.brandName = "" then .error .brandNameRequired
    else if p.email = "" then .error .emailRequired
    else .ok (cleanPayload (buildUpdatePayload uid now p))

/-- The effect of `upsert(payload, onConflict: user_id)` on the
matched row: each column named in the payload takes the payload value;
every other column keeps its previous value. -/
def upsertApply (row payload : List (String × FieldVal)) :
    List (String × FieldVal) :=
  row.map (fun kv =>
    match payload.lookup kv.1 with
    | some v => (kv.1, v)
    | none => kv)

/-- `RegisterForm.handleSubmit`: the brand row inserted at
registration. `user_id` may be null (inserted before email
verification), and `logo` and `description` are hard-coded to the
empty string. -/
def registerBrandInsert (userId : Option String)
    (name email firstName lastName mobile designation industryCategory
     numEmployees now : String) : List (String × FieldVal) :=
  [("user_id", match userId with | some u => .str u | none => .null),
   ("name", .str name),
   ("email", .str email),
   ("contact_first_name", .str firstName),
   ("contact_last_name", .str lastName),
   ("contact_email", .str email),
   ("contact_mobile", .str mobile),
   ("designation", .str designation),
   ("industry_category", .str industryCategory),
   ("num_employees", .str numEmployees),
   ("status", .str "pending"),
   ("created_at", .str now),
   ("updated_at", .str now),
   ("logo", .str ""),
   ("description", .str ""),
   ("website", .str ""),
   ("gst_number", .str ""),
   ("founded_year", .str ""),
   ("hq_location", .str ""),
   ("whatsapp_support", .str ""),
   ("social_handles", .obj []),
   ("support_email", .str ""),
   ("support_phone", .str ""),
   ("team_members", .strList []),
   ("product_categories", .strList [])]

/-! ### Brand URL slug (`BrandProfileSection.handleSubmit`, tail).

`brandName.toLowerCase().replace(/[^a-z0-9]+/g, '-')
.replace(/(^-|-$)/g, '')`. Lowercasing is modelled by `Char.toLower`
(ASCII case folding). -/

/-- Characters the first regex keeps: `[a-z0-9]`. -/
def isSlugChar (c : Char) : Bool :=
  ('a' ≤ c && c ≤ 'z') || ('0' ≤ c && c ≤ '9')

/-- Replace every character outside `[a-z0-9]` by `'-'`. -/
def dashify (l : List Char) : List Char :=
  l.map (fun c => if isSlugChar c then c else '-')

/-- Collapse each run of consecutive dashes to a single dash; with
`dashify` this realizes `replace(/[^a-z0-9]+/g, '-')` (each maximal
run of excluded characters becomes one dash). -/
def collapseDashes : List Char → List Char
  | [] => []
  | c :: cs =>
    match collapseDashes cs with
    | [] => [c]
    | d :: ds => if c == '-' && d == '-' then d :: ds else c :: d :: ds

/-- Drop a single leading dash (the `^-` alternative of the second
regex; `-$` is the same on the reversed list). -/
def dropLeadDash : List Char → List Char
  | [] => []
  | c :: cs => if c == '-' then cs else c :: cs

/-- The slug computed on profile save and pushed into the URL. -/
def brandSlug (name : String) : String :=
  let collapsed := collapseDashes (dashify (name.toList.map Char.toLower))
  let noLead := dropLeadDash collapsed
  String.mk ((dropLeadDash noLead.reverse).reverse)

/-! ### Product ingredients round-trip (`BrandProductDetail`).

`handleSave` stores `JSON.stringify(form.ingredients)`;
`fetchProduct` applies `JSON.parse` to the stored string and falls
back to `[]` when parsing throws. The serializer and parser below
model the two built-ins on the ingredient-list shape the page uses
(arrays of `{name, quantity}` string pairs, no whitespace, `"` and
`\` escaped with a backslash). -/

/-- One row of the ingredients editor. -/
structure Ingredient where
  name : String
  quantity : String
  deriving DecidableEq, Repr

/-- Backslash-escape `"` and `\` inside a serialized string. -/
def escapeChars : List Char → List Char
  | [] => []
  | c :: cs =>
    if c == '"' || c == '\\' then '\\' :: c :: escapeChars cs
    else c :: escapeChars cs

/-- The characters `{"name":"` opening a serialized ingredient. -/
def ingOpenChars : List Char := '\x7b' :: ('"' :: "name".toList ++ ['"', ':', '"'])

/-- The characters `","quantity":"` between the two fields (after the
closing quote of the name, which the string parser consumes). -/
def ingMidChars : List Char := ',' :: ('"' :: "quantity".toList ++ ['"', ':', '"'])

/-- Serialize one ingredient as `JSON.stringify` does. -/
def stringifyIngredient (i : Ingredient) : List Char :=
  ingOpenChars ++ escapeChars i.name.toList ++ '"' :: ingMidChars ++
    escapeChars i.quantity.toList ++ '"' :: ['\x7d']

/-- Serialize the items of a nonempty array with comma separators,
then the closing bracket. -/
def stringifyItems : List Ingredient → List Char
  | [] => [']']
  | [i] => stringifyIngredient i ++ [']']
  | i :: j :: rest => stringifyIngredient i ++ ',' :: stringifyItems (j :: rest)

/-- `JSON.stringify` on the ingredient list. -/
def stringifyIngredients (l : List Ingredient) : String :=
  String.mk ('[' :: stringifyItems l)

/-- Parse a JSON string body up to its closing quote, undoing the
backslash escapes; returns the body and the input past the quote. -/
def parseJStr : List Char → Option (List Char × List Char)
  | [] => none
  | c :: rest =>
    if c == '"' then some ([], rest)
    else if c == '\\' then
      match rest with
      | [] => none
      | d :: rest2 => (parseJStr rest2).map (fun p => (d :: p.1, p.2))
    else (parseJStr rest).map (fun p => (c :: p.1, p.2))

/-- Consume an expected literal character sequence. -/
def expectChars : List Char → List Char → Option (List Char)
  | [], input => some input
  | _ :: _, [] => none
  | p :: ps, c :: cs => if c == p then expectChars ps cs else none

/-- Parse one serialized ingredient object. -/
def parseIngredientChars (input : List Char) :
    Option (Ingredient × List Char) := do
  let r1 ← expectChars ingOpenChars input
  let (n, r2) ← parseJStr r1
  let r3 ← expectChars ingMidChars r2
  let (q, r4) ← parseJStr r3
  let r5 ← expectChars ['\x7d'] r4
  pure (⟨String.mk n, String.mk q⟩, r5)

/-- Parse the comma-separated items of a nonempty array up to the
closing bracket (fuelled; one unit of fuel per item). -/
def parseItems : Nat → List Char → Option (List Ingredient × List Char)
  | 0, _ => none
  | fuel + 1, input => do
    let (i, rest) ← parseIngredientChars input
    match rest with
    | ',' :: rest2 =>
      let (is, r) ← parseItems fuel rest2
      pure (i :: is, r)
    | ']' :: rest2 => pure ([i], rest2)
    | _ => none

/-- Parse what follows the opening bracket of the array. -/
def parseArrayRest (rest : List Char) : Option (List Ingredient) :=
  if rest = [']'] then some []
  else
    match parseItems (rest.length + 1) rest with
    | some (is, []) => some is
    | _ => none

/-- `JSON.parse` on a serialized ingredient list: `none` models a
thrown parse error. -/
def parseIngredients (s : String) : Option (List Ingredient) :=
  match s.toList with
  | '[' :: rest => parseArrayRest rest
  | _ => none

/-- `fetchProduct`'s read of the stored ingredients column: parse the
string, yielding `[]` when parsing fails. -/
def loadIngredients (stored : String) : List Ingredient :=
  match parseIngredients stored with
  | some is => is
  | none => []

/-! ### Concrete example rows (used by witnesses and counterexamples,
following the scenario of spec §8). -/

/-- Example brand-role user `u1`. -/
def exUser : User :=
  ⟨"u1", 0, 0, "a@b.com", "pw", .brand,
    none, none, none, none, none, none⟩

/-- Example customer-role user `u2`. -/
def exUser2 : User :=
  ⟨"u2", 1, 1, "c@d.com", "pw", .customer,
    none, none, none, none, none, none⟩

/-- Example brand `b1` owned by `u1` ("Acme"). -/
def exBrand : Brand :=
  ⟨"b1", 0, 0, "u1", "Acme", "logo.png", none, "desc",
    none, none, none, none, "a@b.com", none, none, none, none, none,
    none, none, none, none, true, false, none⟩

/-- A second brand also owned by `u1`. -/
def exBrand2 : Brand :=
  ⟨"b2", 2, 2, "u1", "Acme Two", "logo2.png", none, "desc2",
    none, none, none, none, "a@b.com", none, none, none, none, none,
    none, none, none, none, true, false, none⟩

/-- Example landing page `p1` of `b1` with slug "acme-launch". -/
def exPage : LandingPage :=
  ⟨"p1", 0, 0, "b1", "Launch", "acme-launch", .draft, none⟩

/-- A second landing page reusing the slug "acme-launch". -/
def exPage2 : LandingPage :=
  ⟨"p2", 3, 3, "b1", "Other", "acme-launch", .draft, none⟩

/-- Example QR code `q1` on `p1`, owned by `b1`. -/
def exQr : QRCode :=
  ⟨"q1", 0, 0, "p1", "b1", "qr", "https://x/acme-launch", none, 1⟩

/-- Example scan log on `q1` recorded by `u1`. -/
def exLog : ScanLog :=
  ⟨"l1", 0, "q1", some "u1", none, none, none⟩

/-- A store in which `u1` owns the whole graph down to a scan log that
also references `u1`. -/
def exStoreA : Store :=
  ⟨[exUser], [], [], [exBrand], [], [], [exPage], [], [exQr], [exLog]⟩

/-- A store with just the two users. -/
def exStoreU : Store :=
  ⟨[exUser, exUser2], [], [], [], [], [], [], [], [], []⟩

/-- Example customer profile of `u2`. -/
def exCustomerProfile : CustomerProfile :=
  ⟨"cp1", 0, 0, "u2", none, []⟩

/-- A second customer profile for the same user `u2`. -/
def exCustomerProfile2 : CustomerProfile :=
  ⟨"cp2", 4, 4, "u2", none, ["b1"]⟩

/-- Example admin profile of `u1`. -/
def exAdminProfile : AdminProfile :=
  ⟨"ap1", 0, 0, "u1", [], none, false⟩

/-- A second admin profile for the same user `u1`. -/
def exAdminProfile2 : AdminProfile :=
  ⟨"ap2", 5, 5, "u1", ["all"], none, true⟩

/-- A store with both users and one profile of each kind. -/
def exStoreP : Store :=
  ⟨[exUser, exUser2], [exCustomerProfile], [exAdminProfile],
    [], [], [], [], [], [], []⟩

/-- A review of `b1` by `u2` with an out-of-range rating. -/
def exBadReview : Review :=
  ⟨"r1", 0, 0, "u2", "b1", 0, none, []⟩

/-- A store with both users and the brand (no reviews yet). -/
def exStoreB : Store :=
  ⟨[exUser, exUser2], [], [], [exBrand], [], [], [], [], [], []⟩

/-- A profile form with a brand name and email but empty logo and
description (and everything else empty). -/
def exForm : ProfileForm :=
  ⟨"Acme", "", "", "", "", "", "", "", "", "", "", [], [],
    "a@b.com", "", "", []⟩

/-! ## Claims -/

/-- C7: brand ownership is not one-per-user: from a store with a
single user, two distinct brand rows referencing the same user id are
both created successfully and the result still satisfies every
declared constraint — `Brand.userId` carries no uniqueness
constraint. -/
theorem brand_userId_not_unique :
    ∃ s1 s2 : Store,
      createBrand ⟨[exUser], [], [], [], [], [], [], [], [], []⟩ exBrand
        = .ok s1 ∧
      createBrand s1 exBrand2 = .ok s2 ∧
      exBrand ∈ s2.brands ∧ exBrand2 ∈ s2.brands ∧
      exBrand ≠ exBrand2 ∧ exBrand.userId = exBrand2.userId ∧
      WellFormed s2 := by
  refine ⟨_, _, rfl, rfl, ?_, ?_, ?_, ?_, ?_⟩ <;> decide

/-- C4 counterexample: saving a brand profile whose logo and
description are both empty succeeds (the handler validates only the
brand name and the email), refuting the claim that an empty logo or
description makes brand creation fail. -/
theorem brand_create_empty_logo_accepted :
    exForm.logo = "" ∧ exForm.description = "" ∧
    (brandProfileSubmit (some "u1") "t0" exForm).isOk = true := by
  refine ⟨rfl, rfl, ?_⟩
  decide

/-- C4 amended: the profile-save handler fails without an
authenticated user, with an empty brand name, or with an empty email,
and otherwise succeeds — an empty logo or description never causes
failure (empty-valued entries are merely dropped from the payload);
the registration path inserts a brand row whose logo and description
are hard-coded empty. -/
theorem brand_create_required_fields (now : String) (p : ProfileForm) :
    (brandProfileSubmit none now p = .error .notLoggedIn) ∧
    (p.brandName = "" → ∀ uid,
      brandProfileSubmit (some uid) now p = .error .brandNameRequired) ∧
    (p.brandName ≠ "" → p.email = "" → ∀ uid,
      brandProfileSubmit (some uid) now p = .error .emailRequired) ∧
    (p.brandName ≠ "" → p.email ≠ "" → ∀ uid,
      brandProfileSubmit (some uid) now p
        = .ok (cleanPayload (buildUpdatePayload uid now p)) ∧
      ∀ kv ∈ cleanPayload (buildUpdatePayload uid now p),
        kv.2 ≠ .null ∧ kv.2 ≠ .str "") ∧
    (∀ userId name email fn ln mob des ind ne now',
      (registerBrandInsert userId name email fn ln mob des ind ne now').lookup
        "logo" = some (.str "") ∧
      (registerBrandInsert userId name email fn ln mob des ind ne now').lookup
        "description" = some (.str "")) := by
  refine ⟨rfl, ?_, ?_, ?_, ?_⟩
  · intro h uid
    simp [brandProfileSubmit, h]
  · intro h1 h2 uid
    simp [brandProfileSubmit, h1, h2]
  · intro h1 h2 uid
    refine ⟨by simp [brandProfileSubmit, h1, h2], ?_⟩
    intro kv hkv
    have := List.of_mem_filter hkv
    simp only [Bool.not_eq_true', Bool.or_eq_false_iff] at this
    obtain ⟨ha, hb⟩ := this
    constructor
    · intro hc; rw [hc] at ha; simp at ha
    · intro hc; rw [hc] at hb; simp at hb
  · intro userId name email fn ln mob des ind ne now'
    cases userId <;> simp [registerBrandInsert, List.lookup]

/-- C4 witness. -/
theorem brand_create_required_fields_witness :
    brandProfileSubmit (some "u1") "t0" ⟨"", "", "", "", "", "", "", "",
      "", "", "", [], [], "", "", "", []⟩ = .error .brandNameRequired := by
  exact (brand_create_required_fields "t0" _).2.1 rfl "u1"

/-- C5: `upsert(..., onConflict: user_id)` has partial-update
semantics — a column not named in the payload keeps its previous
value (and a column absent from the row stays absent), and a column
can only change to a value the payload specifies for it. -/
theorem brand_update_partial (row payload : List (String × FieldVal))
    (k : String) :
    (upsertApply row payload).lookup k =
      match payload.lookup k, row.lookup k with
      | _, none => none
      | none, some w => some w
      | some v, some _ => some v := by
  induction row with
  | nil => simp [upsertApply]
  | cons kv rest ih =>
    obtain ⟨k0, w0⟩ := kv
    by_cases hk : k = k0
    · subst hk
      cases hp : payload.lookup k <;>
        simp [upsertApply, List.lookup, hp]
    · have hbeq : (k == k0) = false := by
        simp [hk]
      cases hp : payload.lookup k0 <;>
        simpa [upsertApply, List.lookup, hbeq, hp] using ih

/-- C8: the storage layer does not bound the review rating (a rating
of 0 inserts successfully), while the caller-side validation the spec
requires accepts exactly the ratings in 1..5: a checked create that
succeeds always carries an in-range rating, and an out-of-range rating
is rejected with `ValidationError`, inserting nothing. -/
theorem review_rating_contract :
    (∀ s r s', createReviewChecked s r = .ok s' →
      (1 ≤ r.rating ∧ r.rating ≤ 5) ∧ s'.reviews = r :: s.reviews) ∧
    (∀ s r, r.rating < 1 ∨ 5 < r.rating →
      createReviewChecked s r = .error .validationError) ∧
    (∃ s', createReview exStoreB exBadReview = .ok s' ∧
      exBadReview.rating = 0 ∧ exBadReview ∈ s'.reviews) := by
  refine ⟨?_, ?_, ?_⟩
  · intro s r s' h
    unfold createReviewChecked at h
    split at h
    · cases h
    · rename_i hcond
      simp only [Bool.or_eq_true, not_or, Bool.not_eq_true,
        decide_eq_false_iff_not, not_lt] at hcond
      unfold createReview at h
      split at h
      · cases h
      · split at h
        · cases h
        · cases h
          exact ⟨⟨by omega, by omega⟩, rfl⟩
  · intro s r h
    unfold createReviewChecked
    split
    · rfl
    · rename_i hcond
      simp only [Bool.or_eq_true, not_or, Bool.not_eq_true,
        decide_eq_false_iff_not, not_lt] at hcond
      omega
  · refine ⟨_, rfl, rfl, ?_⟩
    decide

/-- A review of `b1` by `u2` with an in-range rating. -/
def exGoodReview : Review :=
  ⟨"r2", 0, 0, "u2", "b1", 3, none, []⟩

/-- C8 witness. -/
theorem review_rating_contract_witness :
    (1 ≤ exGoodReview.rating ∧ exGoodReview.rating ≤ 5) ∧
    ({ exStoreB with reviews := [exGoodReview] } : Store).reviews
      = exGoodReview :: exStoreB.reviews :=
  review_rating_contract.1 exStoreB exGoodReview
    { exStoreB with reviews := [exGoodReview] } rfl

/-- C6: a user has at most one profile of each kind — creating a
second customer (resp. admin) profile for a user that already has one
fails with `ProfileAlreadyExists` (producing no new store, so the
existing row is untouched), and any successful profile creation
preserves the one-row-per-user property enforced by the `@unique`
foreign keys. -/
theorem profile_per_user_unique (s : Store) (p : CustomerProfile)
    (q : AdminProfile) :
    ((∃ p0 ∈ s.customerProfiles, p0.userId = p.userId) →
      createCustomerProfile s p = .error .profileAlreadyExists) ∧
    ((∃ q0 ∈ s.adminProfiles, q0.userId = q.userId) →
      createAdminProfile s q = .error .profileAlreadyExists) ∧
    ((s.customerProfiles.map CustomerProfile.userId).Nodup →
      ∀ s', createCustomerProfile s p = .ok s' →
        (s'.customerProfiles.map CustomerProfile.userId).Nodup ∧
        s'.customerProfiles = p :: s.customerProfiles) ∧
    ((s.adminProfiles.map AdminProfile.userId).Nodup →
      ∀ s', createAdminProfile s q = .ok s' →
        (s'.adminProfiles.map AdminProfile.userId).Nodup ∧
        s'.adminProfiles = q :: s.adminProfiles) := by
  refine ⟨?_, ?_, ?_, ?_⟩
  · rintro ⟨p0, hp0, hid⟩
    unfold createCustomerProfile
    have : s.customerProfiles.any (fun q0 => q0.userId == p.userId) = true := by
      simp only [List.any_eq_true, beq_iff_eq]
      exact ⟨p0, hp0, hid⟩
    simp [this]
  · rintro ⟨q0, hq0, hid⟩
    unfold createAdminProfile
    have : s.adminProfiles.any (fun q1 => q1.userId == q.userId) = true := by
      simp only [List.any_eq_true, beq_iff_eq]
      exact ⟨q0, hq0, hid⟩
    simp [this]
  · intro hnd s' h
    unfold createCustomerProfile at h
    split at h
    · cases h
    · rename_i hany
      split at h
      · cases h
      · cases h
        refine ⟨?_, rfl⟩
        simp only [List.any_eq_true, beq_iff_eq, not_exists, not_and] at hany
        simp only [List.map_cons, List.nodup_cons, List.mem_map]
        refine ⟨?_, hnd⟩
        rintro ⟨p0, hp0, hid⟩
        exact hany p0 hp0 hid
  · intro hnd s' h
    unfold createAdminProfile at h
    split at h
    · cases h
    · rename_i hany
      split at h
      · cases h
      · cases h
        refine ⟨?_, rfl⟩
        simp only [List.any_eq_true, beq_iff_eq, not_exists, not_and] at hany
        simp only [List.map_cons, List.nodup_cons, List.mem_map]
        refine ⟨?_, hnd⟩
        rintro ⟨q0, hq0, hid⟩
        exact hany q0 hq0 hid

/-- C6 witness. -/
theorem profile_per_user_unique_witness :
    createCustomerProfile exStoreP exCustomerProfile2
      = .error .profileAlreadyExists ∧
    createAdminProfile exStoreP exAdminProfile2
      = .error .profileAlreadyExists :=
  ⟨(profile_per_user_unique exStoreP exCustomerProfile2 exAdminProfile2).1
      ⟨exCustomerProfile, by decide, rfl⟩,
   (profile_per_user_unique exStoreP exCustomerProfile2 exAdminProfile2).2.1
      ⟨exAdminProfile, by decide, rfl⟩⟩

/-- C2: creating a landing page whose slug is already used anywhere in
the store fails with `ConflictError` and produces no new store (the
existing page and the rest of the store are untouched); from a state
with pairwise-distinct slugs, any successful creation prepends the new
page, changes nothing else, and keeps all slugs pairwise distinct. -/
theorem landing_page_slug_unique (s : Store) (p : LandingPage) :
    (p.slug ∈ s.slugs → createLandingPage s p = .error .conflictError) ∧
    (SlugsUnique s → ∀ s', createLandingPage s p = .ok s' →
      SlugsUnique s' ∧ s'.landingPages = p :: s.landingPages ∧
      s'.users = s.users ∧ s'.customerProfiles = s.customerProfiles ∧
      s'.adminProfiles = s.adminProfiles ∧ s'.brands = s.brands ∧
      s'.reviews = s.reviews ∧ s'.files = s.files ∧
      s'.blocks = s.blocks ∧ s'.qrCodes = s.qrCodes ∧
      s'.scanLogs = s.scanLogs) := by
  constructor
  · intro hmem
    unfold createLandingPage
    have : s.landingPages.any (fun q => q.slug == p.slug) = true := by
      simp only [List.any_eq_true, beq_iff_eq]
      simp only [Store.slugs, List.mem_map] at hmem
      obtain ⟨q, hq, hslug⟩ := hmem
      exact ⟨q, hq, hslug⟩
    simp [this]
  · intro hsu s' h
    unfold createLandingPage at h
    split at h
    · cases h
    · rename_i hany
      split at h
      · cases h
      · cases h
        refine ⟨?_, rfl, rfl, rfl, rfl, rfl, rfl, rfl, rfl, rfl, rfl⟩
        simp only [List.any_eq_true, beq_iff_eq, not_exists, not_and] at hany
        unfold SlugsUnique Store.slugs at hsu ⊢
        simp only [List.map_cons, List.nodup_cons, List.mem_map]
        refine ⟨?_, hsu⟩
        rintro ⟨q, hq, hslug⟩
        exact hany q hq hslug

/-- C2 witness. -/
theorem landing_page_slug_unique_witness :
    createLandingPage exStoreA exPage2 = .error .conflictError :=
  (landing_page_slug_unique exStoreA exPage2).1 (by decide)

/-! ### Cascade-delete lemmas: surviving foreign keys still resolve. -/

theorem mem_userIds_deleteUser {s : Store} {uid x : String}
    (hx : x ∈ s.userIds) (hne : x ≠ uid) :
    x ∈ (deleteUser s uid).userIds := by
  simp only [Store.userIds, deleteUser, List.mem_map, List.mem_filter,
    bne_iff_ne, ne_eq] at hx ⊢
  obtain ⟨u, hu, rfl⟩ := hx
  exact ⟨u, ⟨hu, hne⟩, rfl⟩

theorem mem_brandIds_deleteUser {s : Store} {uid x : String}
    (hx : x ∈ s.brandIds) (hnd : x ∉ deletedBrandIds s uid) :
    x ∈ (deleteUser s uid).brandIds := by
  simp only [deletedBrandIds, List.mem_map, List.mem_filter, beq_iff_eq,
    not_exists, not_and] at hnd
  simp only [Store.brandIds, deleteUser, List.mem_map, List.mem_filter,
    bne_iff_ne, ne_eq] at hx ⊢
  obtain ⟨b, hb, rfl⟩ := hx
  refine ⟨b, ⟨hb, ?_⟩, rfl⟩
  intro hown
  exact hnd b ⟨hb, hown⟩ rfl

theorem mem_pageIds_deleteUser {s : Store} {uid x : String}
    (hx : x ∈ s.pageIds) (hnd : x ∉ deletedPageIds s uid) :
    x ∈ (deleteUser s uid).pageIds := by
  simp only [deletedPageIds, List.mem_map, List.mem_filter,
    not_exists, not_and] at hnd
  simp only [Store.pageIds, deleteUser, List.mem_map, List.mem_filter] at hx ⊢
  obtain ⟨p, hp, rfl⟩ := hx
  refine ⟨p, ⟨hp, ?_⟩, rfl⟩
  simp only [Bool.not_eq_true', ← Bool.not_eq_true]
  intro hcon
  have : (deletedBrandIds s uid).contains p.brandId = true := by
    simpa using hcon
  exact hnd p ⟨hp, this⟩ rfl

theorem mem_qrIds_deleteUser {s : Store} {uid x : String}
    (hx : x ∈ s.qrIds) (hnd : x ∉ deletedQrIds s uid) :
    x ∈ (deleteUser s uid).qrIds := by
  simp only [deletedQrIds, List.mem_map, List.mem_filter,
    not_exists, not_and] at hnd
  simp only [Store.qrIds, deleteUser, List.mem_map, List.mem_filter] at hx ⊢
  obtain ⟨q, hq, rfl⟩ := hx
  refine ⟨q, ⟨hq, ?_⟩, rfl⟩
  simp only [Bool.and_eq_true, Bool.not_eq_true']
  constructor
  · rcases hb : (deletedBrandIds s uid).contains q.brandId with _ | _
    · rfl
    · exact absurd rfl (hnd q ⟨hq, by
        simp only [Bool.or_eq_true]; exact Or.inl hb⟩)
  · rcases hp : (deletedPageIds s uid).contains q.landingPageId with _ | _
    · rfl
    · exact absurd rfl (hnd q ⟨hq, by
        simp only [Bool.or_eq_true]; exact Or.inr hp⟩)

/-- C1 counterexample: in a well-formed store where user `u1` owns
brand `b1`, page `p1` and QR code `q1`, and a scan log on `q1` also
references `u1`, deleting `u1` removes that scan log entirely (the
cascade through the QR code wins over the SetNull rule), so the log is
not kept with a nulled user reference as the claim states. -/
theorem user_delete_scanlog_removed :
    WellFormed exStoreA ∧ exLog ∈ exStoreA.scanLogs ∧
    exLog.userId = some "u1" ∧
    (deleteUser exStoreA "u1").scanLogs = [] := by
  refine ⟨by decide, by decide, rfl, by decide⟩

/-- C1 amended: deleting a user removes its profiles and brands and,
transitively, the brands' files, reviews, landing pages and QR codes,
preserving referential integrity (no orphaned rows); every scan log
referencing the deleted user *whose QR code is not itself
cascade-deleted* is kept with its user reference set to null, and no
surviving scan log references the deleted user. -/
theorem user_delete_cascade (s : Store) (uid : String) (h : WellFormed s) :
    WellFormed (deleteUser s uid) ∧
    (∀ b ∈ (deleteUser s uid).brands, b.userId ≠ uid) ∧
    (∀ p ∈ (deleteUser s uid).customerProfiles, p.userId ≠ uid) ∧
    (∀ p ∈ (deleteUser s uid).adminProfiles, p.userId ≠ uid) ∧
    (∀ f ∈ (deleteUser s uid).files,
      f.userId ≠ uid ∧ f.brandId ∉ deletedBrandIds s uid) ∧
    (∀ r ∈ (deleteUser s uid).reviews,
      r.userId ≠ uid ∧ r.brandId ∉ deletedBrandIds s uid) ∧
    (∀ p ∈ (deleteUser s uid).landingPages,
      p.brandId ∉ deletedBrandIds s uid) ∧
    (∀ q ∈ (deleteUser s uid).qrCodes,
      q.brandId ∉ deletedBrandIds s uid ∧
      q.landingPageId ∉ deletedPageIds s uid) ∧
    (∀ l ∈ s.scanLogs, l.userId = some uid →
      l.qrCodeId ∉ deletedQrIds s uid →
      { l with userId := none } ∈ (deleteUser s uid).scanLogs) ∧
    (∀ l ∈ (deleteUser s uid).scanLogs, l.userId ≠ some uid) := by
  obtain ⟨h1, h2, h3, h4, h5, h6, h7, h8, h9⟩ := h
  refine ⟨⟨?_, ?_, ?_, ?_, ?_, ?_, ?_, ?_, ?_⟩, ?_, ?_, ?_, ?_, ?_, ?_, ?_,
    ?_, ?_⟩
  · intro p hp
    rw [show (deleteUser s uid).customerProfiles
        = s.customerProfiles.filter (fun p => p.userId != uid) from rfl,
      List.mem_filter] at hp
    obtain ⟨hp, hne⟩ := hp
    exact mem_userIds_deleteUser (h1 p hp) (by simpa using hne)
  · intro p hp
    rw [show (deleteUser s uid).adminProfiles
        = s.adminProfiles.filter (fun p => p.userId != uid) from rfl,
      List.mem_filter] at hp
    obtain ⟨hp, hne⟩ := hp
    exact mem_userIds_deleteUser (h2 p hp) (by simpa using hne)
  · intro b hb
    rw [show (deleteUser s uid).brands
        = s.brands.filter (fun b => b.userId != uid) from rfl,
      List.mem_filter] at hb
    obtain ⟨hb, hne⟩ := hb
    exact mem_userIds_deleteUser (h3 b hb) (by simpa using hne)
  · intro r hr
    rw [show (deleteUser s uid).reviews = s.reviews.filter (fun r =>
        r.userId != uid && !((deletedBrandIds s uid).contains r.brandId))
        from rfl, List.mem_filter] at hr
    obtain ⟨hr, hcond⟩ := hr
    simp only [Bool.and_eq_true, bne_iff_ne, ne_eq, Bool.not_eq_true'] at hcond
    obtain ⟨hne, hnb⟩ := hcond
    refine ⟨mem_userIds_deleteUser (h4 r hr).1 hne,
      mem_brandIds_deleteUser (h4 r hr).2 ?_⟩
    simpa using hnb
  · intro f hf
    rw [show (deleteUser s uid).files = s.files.filter (fun f =>
        f.userId != uid && !((deletedBrandIds s uid).contains f.brandId))
        from rfl, List.mem_filter] at hf
    obtain ⟨hf, hcond⟩ := hf
    simp only [Bool.and_eq_true, bne_iff_ne, ne_eq, Bool.not_eq_true'] at hcond
    obtain ⟨hne, hnb⟩ := hcond
    refine ⟨mem_userIds_deleteUser (h5 f hf).1 hne,
      mem_brandIds_deleteUser (h5 f hf).2 ?_⟩
    simpa using hnb
  · intro p hp
    rw [show (deleteUser s uid).landingPages = s.landingPages.filter (fun p =>
        !((deletedBrandIds s uid).contains p.brandId)) from rfl,
      List.mem_filter] at hp
    obtain ⟨hp, hcond⟩ := hp
    simp only [Bool.not_eq_true'] at hcond
    exact mem_brandIds_deleteUser (h6 p hp) (by simpa using hcond)
  · intro b hb
    rw [show (deleteUser s uid).blocks = s.blocks.filter (fun b =>
        !((deletedPageIds s uid).contains b.landingPageId)) from rfl,
      List.mem_filter] at hb
    obtain ⟨hb, hcond⟩ := hb
    simp only [Bool.not_eq_true'] at hcond
    exact mem_pageIds_deleteUser (h7 b hb) (by simpa using hcond)
  · intro q hq
    rw [show (deleteUser s uid).qrCodes = s.qrCodes.filter (fun q =>
        !((deletedBrandIds s uid).contains q.brandId) &&
        !((deletedPageIds s uid).contains q.landingPageId)) from rfl,
      List.mem_filter] at hq
    obtain ⟨hq, hcond⟩ := hq
    simp only [Bool.and_eq_true, Bool.not_eq_true'] at hcond
    exact ⟨mem_pageIds_deleteUser (h8 q hq).1 (by simpa using hcond.2),
      mem_brandIds_deleteUser (h8 q hq).2 (by simpa using hcond.1)⟩
  · intro l' hl'
    rw [show (deleteUser s uid).scanLogs = (s.scanLogs.filter (fun l =>
        !((deletedQrIds s uid).contains l.qrCodeId))).map (fun l =>
        if l.userId == some uid then { l with userId := none } else l)
        from rfl, List.mem_map] at hl'
    obtain ⟨l0, hl0, rfl⟩ := hl'
    rw [List.mem_filter] at hl0
    obtain ⟨hl0, hcond⟩ := hl0
    simp only [Bool.not_eq_true'] at hcond
    have hqr : (if l0.userId == some uid then { l0 with userId := none }
        else l0).qrCodeId = l0.qrCodeId := by
      split <;> rfl
    rw [hqr]
    refine ⟨mem_qrIds_deleteUser (h9 l0 hl0).1 (by simpa using hcond), ?_⟩
    intro u hu
    by_cases hc : (l0.userId == some uid) = true
    · rw [if_pos hc] at hu
      cases hu
    · rw [if_neg hc] at hu
      refine mem_userIds_deleteUser ((h9 l0 hl0).2 u hu) ?_
      intro hequ
      rw [hequ] at hu
      simp [hu] at hc
  · intro b hb
    rw [show (deleteUser s uid).brands
        = s.brands.filter (fun b => b.userId != uid) from rfl,
      List.mem_filter] at hb
    simpa using hb.2
  · intro p hp
    rw [show (deleteUser s uid).customerProfiles
        = s.customerProfiles.filter (fun p => p.userId != uid) from rfl,
      List.mem_filter] at hp
    simpa using hp.2
  · intro p hp
    rw [show (deleteUser s uid).adminProfiles
        = s.adminProfiles.filter (fun p => p.userId != uid) from rfl,
      List.mem_filter] at hp
    simpa using hp.2
  · intro f hf
    rw [show (deleteUser s uid).files = s.files.filter (fun f =>
        f.userId != uid && !((deletedBrandIds s uid).contains f.brandId))
        from rfl, List.mem_filter] at hf
    have := hf.2
    simp only [Bool.and_eq_true, bne_iff_ne, ne_eq, Bool.not_eq_true'] at this
    exact ⟨this.1, by simpa using this.2⟩
  · intro r hr
    rw [show (deleteUser s uid).reviews = s.reviews.filter (fun r =>
        r.userId != uid && !((deletedBrandIds s uid).contains r.brandId))
        from rfl, List.mem_filter] at hr
    have := hr.2
    simp only [Bool.and_eq_true, bne_iff_ne, ne_eq, Bool.not_eq_true'] at this
    exact ⟨this.1, by simpa using this.2⟩
  · intro p hp
    rw [show (deleteUser s uid).landingPages = s.landingPages.filter (fun p =>
        !((deletedBrandIds s uid).contains p.brandId)) from rfl,
      List.mem_filter] at hp
    have := hp.2
    simp only [Bool.not_eq_true'] at this
    simpa using this
  · intro q hq
    rw [show (deleteUser s uid).qrCodes = s.qrCodes.filter (fun q =>
        !((deletedBrandIds s uid).contains q.brandId) &&
        !((deletedPageIds s uid).contains q.landingPageId)) from rfl,
      List.mem_filter] at hq
    have := hq.2
    simp only [Bool.and_eq_true, Bool.not_eq_true'] at this
    exact ⟨by simpa using this.1, by simpa using this.2⟩
  · intro l hl hu hq
    rw [show (deleteUser s uid).scanLogs = (s.scanLogs.filter (fun l =>
        !((deletedQrIds s uid).contains l.qrCodeId))).map (fun l =>
        if l.userId == some uid then { l with userId := none } else l)
        from rfl, List.mem_map]
    refine ⟨l, ?_, ?_⟩
    · rw [List.mem_filter]
      exact ⟨hl, by simpa using hq⟩
    · rw [if_pos (by simp [hu])]
  · intro l' hl'
    rw [show (deleteUser s uid).scanLogs = (s.scanLogs.filter (fun l =>
        !((deletedQrIds s uid).contains l.qrCodeId))).map (fun l =>
        if l.userId == some uid then { l with userId := none } else l)
        from rfl, List.mem_map] at hl'
    obtain ⟨l0, _, rfl⟩ := hl'
    by_cases hc : (l0.userId == some uid) = true
    · rw [if_pos hc]
      simp
    · rw [if_neg hc]
      simpa using hc

/-- C1 witness. -/
theorem user_delete_cascade_witness :
    WellFormed (deleteUser exStoreA "u1") ∧
    (∀ b ∈ (deleteUser exStoreA "u1").brands, b.userId ≠ "u1") ∧
    (∀ l ∈ (deleteUser exStoreA "u1").scanLogs, l.userId ≠ some "u1") := by
  have h := user_delete_cascade exStoreA "u1" (by decide)
  exact ⟨h.1, h.2.1, h.2.2.2.2.2.2.2.2.2⟩

/-! ### Scan-recording lemmas. -/

/-- Incrementing scan counters does not change the set of QR ids. -/
theorem qrIds_map_inc (qs : List QRCode) (qid : String) :
    (qs.map (fun q => if q.id == qid
        then { q with scanCount := q.scanCount + 1 } else q)).map QRCode.id
      = qs.map QRCode.id := by
  rw [List.map_map]
  apply List.map_congr_left
  intro q _
  simp only [Function.comp_apply]
  split <;> rfl

/-- A successful run of `recordScans` whose logs all target one
existing QR code appends the logs and bumps exactly that code's
counter by the number of logs. -/
theorem recordScans_spec (qid : String) (logs : List ScanLog) :
    ∀ s : Store, (∀ l ∈ logs, l.qrCodeId = qid) → qid ∈ s.qrIds →
    ∃ s2, recordScans s logs = .ok s2 ∧
      s2.scanLogs = logs.reverse ++ s.scanLogs ∧
      s2.qrCodes = s.qrCodes.map (fun q => if q.id == qid
        then { q with scanCount := q.scanCount + logs.length } else q) ∧
      s2.users = s.users ∧ s2.brands = s.brands ∧
      s2.landingPages = s.landingPages := by
  induction logs with
  | nil =>
    intro s _ _
    refine ⟨s, rfl, by simp, ?_, rfl, rfl, rfl⟩
    have : ∀ q ∈ s.qrCodes, (if q.id == qid
        then { q with scanCount
          := q.scanCount + ([] : List ScanLog).length } else q) = q := by
      intro q _
      split <;> simp
    rw [List.map_congr_left this]
    simp
  | cons l ls ih =>
    intro s hlogs hmem
    have hl : l.qrCodeId = qid := hlogs l (List.mem_cons_self l ls)
    have hcond : (!(s.qrIds.contains l.qrCodeId)) ≠ true := by
      rw [hl]
      simp [hmem]
    unfold recordScans recordScan
    rw [if_neg hcond]
    set s' : Store := { s with
      scanLogs := l :: s.scanLogs
      qrCodes := s.qrCodes.map (fun q =>
        if q.id == l.qrCodeId then { q with scanCount := q.scanCount + 1 }
        else q) } with hs'
    have hmem' : qid ∈ s'.qrIds := by
      rw [hs']
      show qid ∈ (s.qrCodes.map _).map QRCode.id
      rw [hl, qrIds_map_inc]
      exact hmem
    obtain ⟨s2, hrec, hsl, hqr, hu, hb, hp⟩ :=
      ih s' (fun l0 hl0 => hlogs l0 (List.mem_cons_of_mem l hl0)) hmem'
    refine ⟨s2, hrec, ?_, ?_, hu, hb, hp⟩
    · rw [hsl]
      show ls.reverse ++ (l :: s.scanLogs) = (l :: ls).reverse ++ s.scanLogs
      simp
    · rw [hqr]
      show (s.qrCodes.map _).map _ = _
      rw [List.map_map]
      apply List.map_congr_left
      intro q _
      simp only [Function.comp_apply, hl]
      by_cases hq : (q.id == qid) = true
      · rw [if_pos hq]
        have : ({ q with scanCount := q.scanCount + 1 } : QRCode).id = q.id :=
          rfl
        rw [if_pos (by rw [this]; exact hq), if_pos hq]
        show ({ q with scanCount := q.scanCount + 1 + ls.length } : QRCode)
          = { q with scanCount := q.scanCount + (l :: ls).length }
        have harith : q.scanCount + 1 + ls.length
            = q.scanCount + (l :: ls).length := by
          simp [List.length_cons]
          omega
        rw [harith]
      · rw [if_neg hq, if_neg hq, if_neg hq]

/-- No scan log in a well-formed store references a QR id absent from
the store. -/
theorem scanlog_count_zero_of_fresh (s : Store) (qid : String)
    (hwf : WellFormed s) (hfresh : qid ∉ s.qrIds) :
    s.scanLogs.filter (fun l => l.qrCodeId == qid) = [] := by
  rw [List.filter_eq_nil_iff]
  intro l hl
  have := (hwf.2.2.2.2.2.2.2.2 l hl).1
  simp only [beq_iff_eq]
  intro heq
  rw [heq] at this
  exact hfresh this

/-- C3: a QR code is created with scan counter zero; the counter
equals the number of scan logs referencing the code in every state the
scan-recording path produces, and after any sequence of N scan-record
operations against the code (concurrent scans being observably some
sequential order of them, since each log-insert/counter-increment pair
is atomic) the counter is N and exactly N scan-log rows reference the
code. -/
theorem qr_scan_counter (s : Store) (q : QRCode) (logs : List ScanLog)
    (hwf : WellFormed s) (hinv : ScanInv s) (hfresh : q.id ∉ s.qrIds)
    (hpage : q.landingPageId ∈ s.pageIds) (hbrand : q.brandId ∈ s.brandIds)
    (hlogs : ∀ l ∈ logs, l.qrCodeId = q.id) :
    ∃ s1 s2, createQRCode s q = .ok s1 ∧
      { q with scanCount := 0 } ∈ s1.qrCodes ∧ ScanInv s1 ∧
      recordScans s1 logs = .ok s2 ∧ ScanInv s2 ∧
      (∀ q' ∈ s2.qrCodes, q'.id = q.id → q'.scanCount = logs.length) ∧
      (s2.scanLogs.filter (fun l => l.qrCodeId == q.id)).length
        = logs.length := by
  have hzero := scanlog_count_zero_of_fresh s q.id hwf hfresh
  have h1 : createQRCode s q
      = .ok { s with qrCodes := { q with scanCount := 0 } :: s.qrCodes } := by
    unfold createQRCode
    rw [if_neg (by simp [hpage]), if_neg (by simp [hbrand])]
  set s1 : Store := { s with qrCodes := { q with scanCount := 0 } :: s.qrCodes }
    with hs1
  have hinv1 : ScanInv s1 := by
    intro q' hq'
    rw [hs1] at hq'
    rcases List.mem_cons.mp hq' with hq' | hq'
    · subst hq'
      show 0 = (s.scanLogs.filter (fun l => l.qrCodeId == q.id)).length
      rw [hzero]
      rfl
    · exact hinv q' hq'
  have hmem1 : q.id ∈ s1.qrIds := by
    rw [hs1]
    show q.id ∈ ({ q with scanCount := 0 } :: s.qrCodes).map QRCode.id
    simp
  obtain ⟨s2, hrec, hsl, hqr, _, _, _⟩ := recordScans_spec q.id logs s1 hlogs
    hmem1
  have hcount1 : s1.scanLogs.filter (fun l => l.qrCodeId == q.id) = [] := hzero
  have hlogsfilter : logs.filter (fun l => l.qrCodeId == q.id) = logs :=
    List.filter_eq_self.mpr (fun l hl => by simp [hlogs l hl])
  have hcount2 : (s2.scanLogs.filter (fun l => l.qrCodeId == q.id)).length
      = logs.length := by
    rw [hsl, List.filter_append, List.filter_reverse, hcount1,
      List.length_append, List.length_reverse, hlogsfilter]
    rfl
  refine ⟨s1, s2, h1, by rw [hs1]; exact List.mem_cons_self _ _, hinv1, hrec,
    ?_, ?_, hcount2⟩
  · intro q' hq'
    rw [hqr, List.mem_map] at hq'
    obtain ⟨q0, hq0, rfl⟩ := hq'
    by_cases hid : (q0.id == q.id) = true
    · rw [if_pos hid]
      have hq0' : q0.scanCount
          = (s1.scanLogs.filter (fun l => l.qrCodeId == q0.id)).length :=
        hinv1 q0 hq0
      have : q0.id = q.id := by simpa using hid
      rw [this, hcount1] at hq0'
      show q0.scanCount + logs.length = _
      rw [hq0']
      show 0 + logs.length = _
      rw [Nat.zero_add, hsl, List.filter_append, List.filter_reverse,
        List.length_append, List.length_reverse]
      have hid' : ({ q0 with scanCount := q0.scanCount + logs.length }
          : QRCode).id = q0.id := rfl
      rw [hid', this, hcount1, hlogsfilter]
      rfl
    · rw [if_neg hid]
      have hq0' : q0.scanCount
          = (s1.scanLogs.filter (fun l => l.qrCodeId == q0.id)).length :=
        hinv1 q0 hq0
      have hlf : logs.filter (fun l => l.qrCodeId == q0.id) = [] := by
        rw [List.filter_eq_nil_iff]
        intro l hl
        simp only [beq_iff_eq]
        rw [hlogs l hl]
        intro heq
        rw [heq] at hid
        simp at hid
      rw [hsl, List.filter_append, List.filter_reverse, hlf,
        List.length_append, List.length_reverse]
      simpa using hq0'
  · intro q' hq' hid
    rw [hqr, List.mem_map] at hq'
    obtain ⟨q0, hq0, rfl⟩ := hq'
    rw [hs1] at hq0
    rcases List.mem_cons.mp hq0 with hq0 | hq0
    · subst hq0
      rw [if_pos (by simp)]
      show 0 + logs.length = logs.length
      exact Nat.zero_add _
    · exfalso
      have hq0id : q0.id = q.id := by
        by_cases hb : (q0.id == q.id) = true
        · simpa using hb
        · rw [if_neg hb] at hid
          exact absurd hid (by simpa using hb)
      exact hfresh (hq0id ▸ List.mem_map_of_mem QRCode.id hq0)

/-- A store with `u1`, `b1` and `p1` but no QR codes or scan logs. -/
def exStoreC : Store :=
  ⟨[exUser], [], [], [exBrand], [], [], [exPage], [], [], []⟩

/-- A QR code to create on `p1` (its input `scanCount` field is
ignored on create). -/
def exQrNew : QRCode :=
  ⟨"q9", 0, 0, "p1", "b1", "qr9", "https://x/acme-launch", none, 7⟩

/-- Three scan events against `q9`. -/
def exScans : List ScanLog :=
  [⟨"s1", 1, "q9", none, none, none, none⟩,
   ⟨"s2", 2, "q9", some "u1", none, none, none⟩,
   ⟨"s3", 3, "q9", none, none, none, none⟩]

/-- C3 witness. -/
theorem qr_scan_counter_witness :
    ∃ s1 s2, createQRCode exStoreC exQrNew = .ok s1 ∧
      { exQrNew with scanCount := 0 } ∈ s1.qrCodes ∧ ScanInv s1 ∧
      recordScans s1 exScans = .ok s2 ∧ ScanInv s2 ∧
      (∀ q' ∈ s2.qrCodes, q'.id = exQrNew.id →
        q'.scanCount = exScans.length) ∧
      (s2.scanLogs.filter (fun l => l.qrCodeId == exQrNew.id)).length
        = exScans.length :=
  qr_scan_counter exStoreC exQrNew exScans (by decide) (by decide)
    (by decide) (by decide) (by decide) (by decide)

/-! ### JSON round-trip lemmas. -/

/-- Consuming an expected literal that is a prefix of the input leaves
the remainder. -/
theorem expectChars_append (ps rest : List Char) :
    expectChars ps (ps ++ rest) = some rest := by
  induction ps with
  | nil => rfl
  | cons p ps ih => simp [expectChars, ih]

/-- Parsing an escaped string body followed by a closing quote yields
the original body. -/
theorem parseJStr_escape (cs rest : List Char) :
    parseJStr (escapeChars cs ++ '"' :: rest) = some (cs, rest) := by
  induction cs with
  | nil =>
    rw [show escapeChars [] ++ '"' :: rest = '"' :: rest from rfl]
    rw [parseJStr.eq_def]
    simp
  | cons c cs ih =>
    by_cases hc : (c == '"' || c == '\\') = true
    · rw [escapeChars, if_pos hc]
      rw [show ('\\' :: c :: escapeChars cs) ++ '"' :: rest
          = '\\' :: (c :: (escapeChars cs ++ '"' :: rest)) from by simp]
      rw [parseJStr.eq_def]
      simp [ih]
    · rw [escapeChars, if_neg hc]
      simp only [Bool.or_eq_true, beq_iff_eq, not_or] at hc
      rw [show (c :: escapeChars cs) ++ '"' :: rest
          = c :: (escapeChars cs ++ '"' :: rest) from by simp]
      rw [parseJStr.eq_def]
      simp [hc.1, hc.2, ih]

/-- Parsing a serialized ingredient consumes exactly it. -/
theorem parseIngredientChars_stringify (i : Ingredient) (rest : List Char) :
    parseIngredientChars (stringifyIngredient i ++ rest) = some (i, rest) := by
  show parseIngredientChars
    ((ingOpenChars ++ escapeChars i.name.toList ++ '"' :: ingMidChars ++
      escapeChars i.quantity.toList ++ '"' :: ['\x7d']) ++ rest)
    = some (i, rest)
  simp only [List.append_assoc, List.cons_append, List.nil_append]
  rw [parseIngredientChars]
  rw [expectChars_append]
  simp [parseJStr_escape, expectChars_append, expectChars]

/-- Parsing the serialized items of a nonempty list consumes them all
(given fuel beyond the number of remaining items). -/
theorem parseItems_stringifyItems (l : List Ingredient) :
    ∀ (i : Ingredient) (fuel : Nat), l.length < fuel →
      parseItems fuel (stringifyItems (i :: l)) = some (i :: l, []) := by
  induction l with
  | nil =>
    intro i fuel hf
    match fuel, hf with
    | fuel + 1, _ =>
      rw [show stringifyItems [i] = stringifyIngredient i ++ [']'] from rfl]
      rw [parseItems]
      rw [parseIngredientChars_stringify]
      simp
  | cons j l' ih =>
    intro i fuel hf
    match fuel, hf with
    | fuel + 1, hf =>
      rw [show stringifyItems (i :: j :: l')
          = stringifyIngredient i ++ ',' :: stringifyItems (j :: l')
          from rfl]
      rw [parseItems]
      rw [parseIngredientChars_stringify]
      have hih := ih j fuel (by simpa using Nat.lt_of_succ_lt_succ hf)
      simp [hih]

/-- There are at least as many serialized characters as items. -/
theorem length_le_stringifyItems (l : List Ingredient) :
    l.length ≤ (stringifyItems l).length := by
  induction l with
  | nil => simp [stringifyItems]
  | cons i l' ih =>
    cases l' with
    | nil => simp [stringifyItems]
    | cons j l'' =>
      rw [show stringifyItems (i :: j :: l'')
          = stringifyIngredient i ++ ',' :: stringifyItems (j :: l'')
          from rfl]
      simp only [List.length_cons, List.length_append] at ih ⊢
      omega

/-- A nonempty serialized item list starts with an opening brace, not
the closing bracket. -/
theorem stringifyItems_cons_ne (i : Ingredient) (l : List Ingredient) :
    stringifyItems (i :: l) ≠ [']'] := by
  cases l <;>
    simp [stringifyItems, stringifyIngredient, ingOpenChars]

/-- C9: product ingredients round-trip through storage — saving
serializes the list with `JSON.stringify` and loading parses the
stored string back (yielding `[]` only when parsing fails, which never
happens on a stored serialization), so a save followed by a load
returns the list that was saved. -/
theorem ingredients_roundtrip (l : List Ingredient) :
    loadIngredients (stringifyIngredients l) = l := by
  cases l with
  | nil => rfl
  | cons i l' =>
    unfold loadIngredients parseIngredients
    rw [show (stringifyIngredients (i :: l')).toList
        = '[' :: stringifyItems (i :: l') from rfl]
    have hne := stringifyItems_cons_ne i l'
    have hparse := parseItems_stringifyItems l' i
      ((stringifyItems (i :: l')).length + 1)
      (by have := length_le_stringifyItems (i :: l'); simp at this; omega)
    show (match parseArrayRest (stringifyItems (i :: l')) with
      | some is => is
      | none => []) = i :: l'
    unfold parseArrayRest
    rw [if_neg hne, hparse]

/-! ### Slug lemmas. -/

/-- Adjacent-dash freedom: no two consecutive dashes. -/
def NoDD (l : List Char) : Prop :=
  l.Chain' (fun a b => ¬(a = '-' ∧ b = '-'))

theorem dashify_mem {l : List Char} {c : Char} (hc : c ∈ dashify l) :
    isSlugChar c = true ∨ c = '-' := by
  rw [dashify, List.mem_map] at hc
  obtain ⟨a, _, rfl⟩ := hc
  by_cases h : isSlugChar a = true
  · rw [if_pos h]
    exact Or.inl h
  · rw [if_neg h]
    exact Or.inr rfl

theorem collapseDashes_subset {l : List Char} {c : Char}
    (hc : c ∈ collapseDashes l) : c ∈ l := by
  induction l with
  | nil => simp [collapseDashes] at hc
  | cons a as ih =>
    rw [collapseDashes] at hc
    rcases h : collapseDashes as with _ | ⟨d, ds⟩ <;> simp only [h] at hc
    · simp only [List.mem_singleton] at hc
      exact hc ▸ List.mem_cons_self a as
    · by_cases hcond : (a == '-' && d == '-') = true
      · rw [if_pos hcond] at hc
        exact List.mem_cons_of_mem a (ih (by rw [h]; exact hc))
      · rw [if_neg hcond] at hc
        rcases List.mem_cons.mp hc with rfl | hc'
        · exact List.mem_cons_self c as
        · exact List.mem_cons_of_mem a (ih (by rw [h]; exact hc'))

theorem noDD_collapseDashes (l : List Char) : NoDD (collapseDashes l) := by
  induction l with
  | nil => exact List.chain'_nil
  | cons a as ih =>
    rw [collapseDashes]
    rcases h : collapseDashes as with _ | ⟨d, ds⟩ <;> simp only [h]
    · exact List.chain'_singleton a
    · rw [h] at ih
      by_cases hcond : (a == '-' && d == '-') = true
      · rw [if_pos hcond]
        exact ih
      · rw [if_neg hcond]
        refine List.chain'_cons.mpr ⟨?_, ih⟩
        rintro ⟨rfl, rfl⟩
        simp at hcond

theorem dropLeadDash_subset {l : List Char} {c : Char}
    (hc : c ∈ dropLeadDash l) : c ∈ l := by
  cases l with
  | nil => simp [dropLeadDash] at hc
  | cons a as =>
    rw [dropLeadDash] at hc
    split at hc
    · exact List.mem_cons_of_mem a hc
    · exact hc

theorem noDD_dropLeadDash {l : List Char} (h : NoDD l) :
    NoDD (dropLeadDash l) := by
  cases l with
  | nil => exact h
  | cons a as =>
    rw [dropLeadDash]
    split
    · exact h.tail
    · exact h

theorem head_dropLeadDash {l : List Char} (h : NoDD l) :
    (dropLeadDash l).head? ≠ some '-' := by
  cases l with
  | nil => simp [dropLeadDash]
  | cons a as =>
    rw [dropLeadDash]
    by_cases ha : (a == '-') = true
    · rw [if_pos ha]
      cases as with
      | nil => simp
      | cons d ds =>
        rw [NoDD, List.chain'_cons] at h
        simp only [List.head?_cons, ne_eq, Option.some.injEq]
        intro hd
        exact h.1 ⟨by simpa using ha, hd⟩
    · rw [if_neg ha]
      simpa using ha

theorem getLast_dropLeadDash {l : List Char}
    (h : l.getLast? ≠ some '-') :
    (dropLeadDash l).getLast? ≠ some '-' := by
  cases l with
  | nil => simp [dropLeadDash]
  | cons a as =>
    rw [dropLeadDash]
    split
    · cases as with
      | nil => simp
      | cons d ds => rwa [List.getLast?_cons_cons] at h
    · exact h

theorem mem_dropLeadDash_of_ne {l : List Char} {x : Char}
    (hx : x ∈ l) (hne : x ≠ '-') : x ∈ dropLeadDash l := by
  cases l with
  | nil => exact absurd hx (List.not_mem_nil x)
  | cons a as =>
    rw [dropLeadDash]
    split
    · rename_i ha
      rcases List.mem_cons.mp hx with rfl | hx'
      · exact absurd (by simpa using ha) hne
      · exact hx'
    · exact hx

theorem mem_collapseDashes_of_ne {l : List Char} {x : Char}
    (hx : x ∈ l) (hne : x ≠ '-') : x ∈ collapseDashes l := by
  induction l with
  | nil => exact absurd hx (List.not_mem_nil x)
  | cons a as ih =>
    rw [collapseDashes]
    rcases h : collapseDashes as with _ | ⟨d, ds⟩ <;> simp only [h]
    · rcases List.mem_cons.mp hx with rfl | hx'
      · exact List.mem_singleton.mpr rfl
      · have := ih hx'
        rw [h] at this
        exact absurd this (List.not_mem_nil x)
    · by_cases hcond : (a == '-' && d == '-') = true
      · rw [if_pos hcond]
        rcases List.mem_cons.mp hx with rfl | hx'
        · have hx2 : x = '-' ∧ d = '-' := by simpa using hcond
          exact absurd hx2.1 hne
        · have := ih hx'
          rw [h] at this
          exact this
      · rw [if_neg hcond]
        rcases List.mem_cons.mp hx with rfl | hx'
        · exact List.mem_cons_self x _
        · have := ih hx'
          rw [h] at this
          exact List.mem_cons_of_mem a this

theorem noDD_reverse {l : List Char} (h : NoDD l) : NoDD l.reverse := by
  rw [NoDD, List.chain'_reverse]
  exact h.imp (fun a b hab => by
    rintro ⟨h1, h2⟩
    exact hab ⟨h2, h1⟩)

/-- C10: for every brand name, the generated URL slug contains only
characters from `[a-z0-9-]`, never begins or ends with a dash, and is
empty only when the name contains no (ASCII) alphanumeric
character. -/
theorem brandSlug_spec (name : String) :
    (∀ c ∈ (brandSlug name).toList, isSlugChar c = true ∨ c = '-') ∧
    (brandSlug name).toList.head? ≠ some '-' ∧
    (brandSlug name).toList.getLast? ≠ some '-' ∧
    (brandSlug name = "" →
      ∀ c ∈ name.toList, isSlugChar c.toLower = false) := by
  have hC : NoDD (collapseDashes (dashify (name.toList.map Char.toLower))) :=
    noDD_collapseDashes _
  set C := collapseDashes (dashify (name.toList.map Char.toLower)) with hCdef
  set M := dropLeadDash C with hMdef
  have hM : NoDD M := noDD_dropLeadDash hC
  have htoList : (brandSlug name).toList
      = (dropLeadDash M.reverse).reverse := rfl
  refine ⟨?_, ?_, ?_, ?_⟩
  · intro c hc
    rw [htoList, List.mem_reverse] at hc
    have := dropLeadDash_subset hc
    rw [List.mem_reverse] at this
    exact dashify_mem (collapseDashes_subset (dropLeadDash_subset this))
  · rw [htoList, List.head?_reverse]
    apply getLast_dropLeadDash
    rw [List.getLast?_reverse]
    exact head_dropLeadDash hC
  · rw [htoList, List.getLast?_reverse]
    exact head_dropLeadDash (noDD_reverse hM)
  · intro hempty c hcmem
    by_contra hslug
    have hslug' : isSlugChar c.toLower = true := by
      simpa using hslug
    have hnd : c.toLower ≠ '-' := by
      intro hdash
      rw [hdash] at hslug'
      simp [isSlugChar] at hslug'
    have h1 : c.toLower ∈ name.toList.map Char.toLower :=
      List.mem_map_of_mem Char.toLower hcmem
    have h2 : c.toLower ∈ dashify (name.toList.map Char.toLower) := by
      rw [dashify, List.mem_map]
      exact ⟨c.toLower, h1, by rw [if_pos hslug']⟩
    have h3 : c.toLower ∈ M :=
      mem_dropLeadDash_of_ne (mem_collapseDashes_of_ne h2 hnd) hnd
    have h4 : c.toLower ∈ (brandSlug name).toList := by
      rw [htoList, List.mem_reverse]
      exact mem_dropLeadDash_of_ne (List.mem_reverse.mpr h3) hnd
    rw [hempty] at h4
    exact absurd h4 (List.not_mem_nil _)

end Stegofy
